import Mathlib

/-!
Verification of the MTCLI manga reader (src/main.py) against its
natural-language specification.

The development shallowly embeds the parts of `main.py` that the claims
touch:

* the ASCII renderer `image_to_ascii_enhanced` (lines 145-176): the fixed
  character palette, the luminance-to-palette-index mapping, and the
  character-emission loop over the resized pixel grid;
* the chapter-matching step of `read_chapter_enhanced` (lines 185-191);
* the reading loop of `read_chapter_enhanced` (lines 205-271), modelled as
  a fuelled state machine over an oracle environment that decides, per
  iteration, whether the page fetch succeeds, whether each display
  strategy succeeds, and what the user types;
* the progress store `mark_chapter_read` (lines 281-286) and the tail of
  the `search` command (lines 317-323) that invokes the reading session
  and then records progress.

Machine integers are modelled as `Nat`/`Int`; the only arithmetic the
claims exercise (`int(pixel / 255 * 66)` for `pixel` in 0..255) agrees
with the exact floor `pixel * 66 / 255` at every point of that range, so
the exact form is used. Fallible operations return `Option`/`Except`.
-/

/-! ### Bitmap-to-text renderer (main.py lines 145-176) -/

/-- The fixed character palette `ascii_chars` of `image_to_ascii_enhanced`
(main.py line 165), lightest to darkest, transcribed character for
character from the Python string literal. -/
def ascii_chars : List Char :=
  (" .'`^\",:;Il!i~+?_][\x7d\x7b1)(|\\/tfjrxnuvczXYUJCLQ0OZmwqpdbkhao*#MW&8%B@$").toList

/-- Luminance-to-palette-index map of main.py line 173:
`char_index = int(pixel / 255 * (len(ascii_chars) - 1))`.  For pixel
values 0..255 the float computation agrees exactly with this integer
floor. -/
def char_index (pixel : Nat) : Nat :=
  pixel * (ascii_chars.length - 1) / 255

/-- The palette character emitted for a luminance value
(`ascii_chars[char_index]`, main.py line 174); out-of-range indices fall
back to a space (they cannot occur for 8-bit luminance). -/
def palChar (pixel : Nat) : Char :=
  ascii_chars.getD (char_index pixel) ' '

/-- Both copies of the palette character for one pixel (main.py line 174
emits `ascii_chars[char_index] * 2`). -/
def dbl (pixel : Nat) : List Char :=
  [palChar pixel, palChar pixel]

/-- The characters emitted for one row of pixels. -/
def dblRow (row : List Nat) : List Char :=
  (row.map dbl).flatten

/-- The character-emission loop of `image_to_ascii_enhanced` (main.py
lines 170-174): walking the flattened pixel list with running index `i`,
a newline is inserted whenever `i % width == 0 and i != 0`, then the
mapped palette character is emitted twice. -/
def image_to_ascii_loop (width : Nat) : Nat → List Nat → List Char
  | _, [] => []
  | i, p :: ps =>
    (if i % width = 0 ∧ i ≠ 0 then ['\n'] else []) ++ dbl p
      ++ image_to_ascii_loop width (i + 1) ps

/-- Split a character list at newline characters; the standard notion of
the lines of a text block (a text with `n` newline characters has `n + 1`
lines). -/
def splitLines : List Char → List (List Char)
  | [] => [[]]
  | c :: cs =>
    if c = '\n' then [] :: splitLines cs
    else
      match splitLines cs with
      | [] => [[c]]
      | l :: ls => (c :: l) :: ls

/-- The rows of the flattened pixel list: `h` consecutive chunks of
`w` pixels. -/
def chunkRows (w : Nat) : Nat → List Nat → List (List Nat)
  | 0, _ => []
  | h + 1, px => px.take w :: chunkRows w h (px.drop w)

/-! ### Renderer lemmas -/

theorem newline_not_mem_ascii_chars : '\n' ∉ ascii_chars := by decide

theorem palChar_ne_newline (p : Nat) : palChar p ≠ '\n' := by
  unfold palChar List.getD
  cases h : ascii_chars.get? (char_index p) with
  | none => simp
  | some c =>
    have hc : c ∈ ascii_chars := List.get?_mem h
    simp
    intro heq
    exact newline_not_mem_ascii_chars (heq ▸ hc)

theorem count_newline_dbl (p : Nat) : (dbl p).count '\n' = 0 := by
  simp [dbl, List.count_cons, palChar_ne_newline p]

theorem count_newline_dblRow (r : List Nat) : (dblRow r).count '\n' = 0 := by
  induction r with
  | nil => rfl
  | cons p ps ih =>
    simp [dblRow, List.map_cons, List.flatten] at *
    simp [List.count_append, count_newline_dbl, ih]

theorem newline_not_mem_dblRow (r : List Nat) : '\n' ∉ dblRow r := by
  intro hmem
  have := count_newline_dblRow r
  rw [← List.count_pos_iff] at hmem
  omega

theorem length_dblRow (r : List Nat) : (dblRow r).length = 2 * r.length := by
  induction r with
  | nil => rfl
  | cons p ps ih =>
    simp [dblRow, List.map_cons, List.flatten] at *
    simp [dbl, ih]
    omega

theorem image_to_ascii_loop_no_newline_run (w : Nat) (ps : List Nat) :
    ∀ (i : Nat) (rest : List Nat), (∀ t, t < ps.length → (i + t) % w ≠ 0) →
      image_to_ascii_loop w i (ps ++ rest)
        = dblRow ps ++ image_to_ascii_loop w (i + ps.length) rest := by
  induction ps with
  | nil => intro i rest _; simp [dblRow]
  | cons p ps ih =>
    intro i rest hcond
    have h0 : i % w ≠ 0 := by
      have := hcond 0 (by simp)
      simpa using this
    show (if i % w = 0 ∧ i ≠ 0 then ['\n'] else []) ++ dbl p
        ++ image_to_ascii_loop w (i + 1) (ps ++ rest) = _
    rw [if_neg (by intro h; exact h0 h.1)]
    have hrec := ih (i + 1) rest (by
      intro t ht
      have htail := hcond (t + 1) (by simp; omega)
      have heq : i + 1 + t = i + (t + 1) := by omega
      rw [heq]
      exact htail)
    rw [hrec]
    have heq2 : i + (p :: ps).length = i + 1 + ps.length := by simp; omega
    rw [heq2]
    simp [dblRow, List.append_assoc]

theorem image_to_ascii_loop_row (w : Nat) (hw : 0 < w) (k : Nat) (row rest : List Nat)
    (hrow : row.length = w) :
    image_to_ascii_loop w (w * k) (row ++ rest)
      = (if k = 0 then [] else ['\n']) ++ dblRow row
        ++ image_to_ascii_loop w (w * (k + 1)) rest := by
  cases row with
  | nil => simp at hrow; omega
  | cons p ps =>
    have hps : ps.length = w - 1 := by simp at hrow; omega
    show (if (w * k) % w = 0 ∧ w * k ≠ 0 then ['\n'] else []) ++ dbl p
        ++ image_to_ascii_loop w (w * k + 1) (ps ++ rest) = _
    have hmod : (w * k) % w = 0 := Nat.mul_mod_right w k
    have hrun := image_to_ascii_loop_no_newline_run w ps (w * k + 1) rest (by
      intro t ht
      have h1 : w * k + 1 + t = (1 + t) + w * k := by omega
      have h2 : ((1 + t) + w * k) % w = (1 + t) % w := Nat.add_mul_mod_self_left (1 + t) w k
      have h3 : (1 + t) % w = 1 + t := Nat.mod_eq_of_lt (by omega)
      rw [h1, h2, h3]
      omega)
    rw [hrun]
    have hlen : w * k + 1 + ps.length = w * (k + 1) := by
      rw [Nat.mul_succ]
      omega
    rw [hlen]
    by_cases hk : k = 0
    · subst hk
      rw [if_neg (by simp), if_pos rfl]
      simp [dblRow, List.append_assoc]
    · have hwk : w * k ≠ 0 := by positivity
      rw [if_pos ⟨hmod, hwk⟩, if_neg hk]
      simp [dblRow, List.append_assoc]

theorem count_newline_image_to_ascii_loop (w : Nat) (hw : 0 < w) :
    ∀ (h k : Nat) (px : List Nat), px.length = w * h →
      (image_to_ascii_loop w (w * k) px).count '\n'
        = h - (if k = 0 then 1 else 0) := by
  intro h
  induction h with
  | zero =>
    intro k px hlen
    have : px = [] := List.eq_nil_of_length_eq_zero (by omega)
    subst this
    simp [image_to_ascii_loop]
  | succ h ih =>
    intro k px hlen
    have hw' : w ≤ px.length := by
      rw [hlen, Nat.mul_succ]
      omega
    have hsplit : px = px.take w ++ px.drop w := (List.take_append_drop w px).symm
    have htake : (px.take w).length = w := by
      rw [List.length_take]
      omega
    have hdrop : (px.drop w).length = w * h := by
      rw [List.length_drop, hlen, Nat.mul_succ]
      omega
    rw [hsplit, image_to_ascii_loop_row w hw k _ _ htake]
    rw [List.count_append, List.count_append]
    rw [count_newline_dblRow, ih (k + 1) _ hdrop]
    by_cases hk : k = 0
    · subst hk
      simp
    · have hk1 : k + 1 ≠ 0 := Nat.succ_ne_zero k
      rw [if_neg hk, if_neg hk, if_neg hk1]
      simp [List.count_cons]
      omega

theorem splitLines_append_newline (xs ys : List Char) (hxs : '\n' ∉ xs) :
    splitLines (xs ++ '\n' :: ys) = xs :: splitLines ys := by
  induction xs with
  | nil => simp [splitLines]
  | cons c cs ih =>
    have hc : c ≠ '\n' := by intro h; exact hxs (h ▸ List.mem_cons_self c cs)
    have hcs : '\n' ∉ cs := fun h => hxs (List.mem_cons_of_mem c h)
    show splitLines (c :: (cs ++ '\n' :: ys)) = (c :: cs) :: splitLines ys
    rw [splitLines, if_neg hc, ih hcs]

theorem splitLines_no_newline (xs : List Char) (hxs : '\n' ∉ xs) :
    splitLines xs = [xs] := by
  induction xs with
  | nil => rfl
  | cons c cs ih =>
    have hc : c ≠ '\n' := by intro h; exact hxs (h ▸ List.mem_cons_self c cs)
    have hcs : '\n' ∉ cs := fun h => hxs (List.mem_cons_of_mem c h)
    rw [splitLines, if_neg hc, ih hcs]

theorem splitLines_flat_rows (ls : List (List Char)) :
    ∀ (xs : List Char), '\n' ∉ xs → (∀ l ∈ ls, '\n' ∉ l) →
      splitLines (xs ++ (ls.map (fun l => '\n' :: l)).flatten) = xs :: ls := by
  induction ls with
  | nil =>
    intro xs hxs _
    simp [splitLines_no_newline xs hxs]
  | cons l ls ih =>
    intro xs hxs hls
    have h1 : (((l :: ls).map (fun l => '\n' :: l)).flatten : List Char)
        = '\n' :: (l ++ (ls.map (fun l => '\n' :: l)).flatten) := by
      simp [List.map_cons, List.flatten]
    rw [h1, splitLines_append_newline xs _ hxs]
    have h2 := ih l (hls l (List.mem_cons_self l ls))
      (fun x hx => hls x (List.mem_cons_of_mem l hx))
    rw [h2]

theorem image_to_ascii_loop_rows_flat (w : Nat) (hw : 0 < w) :
    ∀ (h k : Nat) (px : List Nat), 0 < k → px.length = w * h →
      image_to_ascii_loop w (w * k) px
        = (((chunkRows w h px).map dblRow).map (fun l => '\n' :: l)).flatten := by
  intro h
  induction h with
  | zero =>
    intro k px _ hlen
    have : px = [] := List.eq_nil_of_length_eq_zero (by omega)
    subst this
    simp [chunkRows, image_to_ascii_loop]
  | succ h ih =>
    intro k px hk hlen
    have hw' : w ≤ px.length := by
      rw [hlen, Nat.mul_succ]
      omega
    have hsplit : px = px.take w ++ px.drop w := (List.take_append_drop w px).symm
    have htake : (px.take w).length = w := by
      rw [List.length_take]
      omega
    have hdrop : (px.drop w).length = w * h := by
      rw [List.length_drop, hlen, Nat.mul_succ]
      omega
    conv_lhs => rw [hsplit]
    rw [image_to_ascii_loop_row w hw k _ _ htake, if_neg (by omega)]
    rw [ih (k + 1) _ (Nat.succ_pos k) hdrop]
    simp [chunkRows, List.map_cons, List.flatten]

theorem splitLines_image_to_ascii_loop (w h : Nat) (hw : 0 < w) (hh : 0 < h)
    (px : List Nat) (hlen : px.length = w * h) :
    splitLines (image_to_ascii_loop w 0 px) = (chunkRows w h px).map dblRow := by
  obtain ⟨h', rfl⟩ : ∃ h', h = h' + 1 := ⟨h - 1, by omega⟩
  have hw' : w ≤ px.length := by
    rw [hlen, Nat.mul_succ]
    omega
  have hsplit : px = px.take w ++ px.drop w := (List.take_append_drop w px).symm
  have htake : (px.take w).length = w := by
    rw [List.length_take]
    omega
  have hdrop : (px.drop w).length = w * h' := by
    rw [List.length_drop, hlen, Nat.mul_succ]
    omega
  conv_lhs => rw [hsplit]
  have h00 : image_to_ascii_loop w 0 (px.take w ++ px.drop w)
      = image_to_ascii_loop w (w * 0) (px.take w ++ px.drop w) := by
    rw [Nat.mul_zero]
  rw [h00, image_to_ascii_loop_row w hw 0 _ _ htake, if_pos rfl]
  rw [image_to_ascii_loop_rows_flat w hw h' 1 _ Nat.one_pos hdrop]
  rw [List.nil_append]
  rw [splitLines_flat_rows _ _ (newline_not_mem_dblRow _) (by
    intro l hl
    obtain ⟨r, _, rfl⟩ := List.mem_map.mp hl
    exact newline_not_mem_dblRow r)]
  simp [chunkRows, List.map_cons]

theorem length_chunkRows (w : Nat) :
    ∀ (h : Nat) (px : List Nat), (chunkRows w h px).length = h := by
  intro h
  induction h with
  | zero => intro px; rfl
  | succ h ih => intro px; simp [chunkRows, ih]

theorem mem_chunkRows_length (w : Nat) (hw : 0 < w) :
    ∀ (h : Nat) (px : List Nat), px.length = w * h →
      ∀ r ∈ chunkRows w h px, r.length = w := by
  intro h
  induction h with
  | zero => intro px _ r hr; simp [chunkRows] at hr
  | succ h ih =>
    intro px hlen r hr
    have hw' : w ≤ px.length := by
      rw [hlen, Nat.mul_succ]
      omega
    have hdrop : (px.drop w).length = w * h := by
      rw [List.length_drop, hlen, Nat.mul_succ]
      omega
    simp [chunkRows] at hr
    rcases hr with hr | hr
    · subst hr
      rw [List.length_take]
      omega
    · exact ih _ hdrop r hr

/-! ### Chapter matching (main.py lines 185-191) -/

/-- A chapter entry as `read_chapter_enhanced` sees it: its id and its
`attributes.chapter` field, which the catalog serves as a string or
null. -/
structure Chapter where
  id : String
  attr : Option String
deriving DecidableEq, Repr

/-- Python truthiness of the `attributes.chapter` field (line 187 guards
with `if ch['attributes']['chapter']`): null and the empty string are
falsy. -/
def pyTruthy : Option String → Bool
  | none => false
  | some s => s ≠ ""

/-- Digits of a decimal string read into a natural number. -/
def digitsToNat (cs : List Char) : Nat :=
  cs.foldl (fun a c => a * 10 + (c.toNat - 48)) 0

/-- Split a decimal literal into sign, integer digits and fraction
digits; `none` when the string is not of the shape
`[-]digits[.digits]` with at least one digit (modelling the inputs on
which Python's `float()` succeeds without exponents/specials). -/
def parseDecimal (s : String) : Option (Bool × List Char × List Char) :=
  let cs := s.toList
  let (neg, cs) := match cs with
    | '-' :: rest => (true, rest)
    | _ => (false, cs)
  let intPart := cs.takeWhile (fun c => c.isDigit)
  let rest := cs.dropWhile (fun c => c.isDigit)
  match rest with
  | [] => if intPart.isEmpty then none else some (neg, intPart, [])
  | '.' :: frac =>
    if frac.all (fun c => c.isDigit) ∧ ¬(intPart.isEmpty ∧ frac.isEmpty) then
      some (neg, intPart, frac)
    else none
  | _ => none

/-- Strip leading zeros of an integer-digit list, keeping at least one
digit. -/
def canonIntDigits (cs : List Char) : List Char :=
  match cs.dropWhile (fun c => c = '0') with
  | [] => ['0']
  | ds => ds

/-- Strip trailing zeros of a fraction-digit list. -/
def canonFracDigits (cs : List Char) : List Char :=
  (cs.reverse.dropWhile (fun c => c = '0')).reverse

/-- Modelled from CPython: `str(float(s))` for plain short decimal
literals (no exponent, no inf/nan, few enough digits that the shortest
round-trip representation of the nearest double is the canonical decimal
itself): leading integer zeros dropped, trailing fraction zeros dropped,
`.0` appended when the fraction is empty, sign kept.  `none` models
`float()` raising `ValueError`. -/
def pyFloatStr (s : String) : Option String :=
  match parseDecimal s with
  | none => none
  | some (neg, ip, fp) =>
    let ipc := String.mk (canonIntDigits ip)
    let fpc := canonFracDigits fp
    let body := if fpc.isEmpty then ipc ++ ".0" else ipc ++ "." ++ String.mk fpc
    some (if neg then "-" ++ body else body)

/-- Exact numeric value of a decimal literal, kept as the unreduced pair
`num / 10 ^ pow10` so that all arithmetic stays kernel-computable. -/
structure DecVal where
  num : Int
  pow10 : Nat
deriving DecidableEq, Repr

/-- Numeric value of a decimal literal (the specification's reading of
"numeric chapter attribute"). -/
def decimalVal? (s : String) : Option DecVal :=
  match parseDecimal s with
  | none => none
  | some (neg, ip, fp) =>
    let n : Int := (digitsToNat ip * 10 ^ fp.length + digitsToNat fp : Nat)
    some ⟨if neg then -n else n, fp.length⟩

/-- Numeric equality of two decimal values by cross multiplication. -/
def DecVal.numEq (a b : DecVal) : Bool :=
  a.num * 10 ^ b.pow10 = b.num * 10 ^ a.pow10

/-- Value of a `DecVal` as a rational number. -/
def DecVal.toRat (a : DecVal) : ℚ :=
  (a.num : ℚ) / (10 : ℚ) ^ a.pow10

theorem DecVal.numEq_iff_toRat_eq (a b : DecVal) :
    a.numEq b = true ↔ a.toRat = b.toRat := by
  unfold DecVal.numEq DecVal.toRat
  rw [div_eq_div_iff (by positivity) (by positivity)]
  simp
  constructor
  · intro h
    exact_mod_cast congrArg (fun z : ℤ => (z : ℚ)) h
  · intro h
    exact_mod_cast h

/-- The matching scan of main.py lines 186-189: the first chapter whose
`chapter` attribute is truthy and whose `str(float(attr))` equals the
string form of the requested chapter number is selected; a truthy
attribute on which `float()` raises aborts the scan with the exception
(`Except.error`). -/
def matchChapterLoop : List Chapter → String → Except Unit (Option Chapter)
  | [], _ => .ok none
  | ch :: rest, reqStr =>
    if pyTruthy ch.attr then
      match pyFloatStr (ch.attr.getD "") with
      | none => .error ()
      | some c =>
        if c = reqStr then .ok (some ch) else matchChapterLoop rest reqStr
    else matchChapterLoop rest reqStr

/-- Chapter selection of main.py lines 185-191 over a non-empty fetched
list `c :: cs`: the scan's hit if any, otherwise the first chapter
(lines 190-191: `if not target_chapter: target_chapter =
chapters_data['data'][0]`). -/
def findTargetChapter (c : Chapter) (cs : List Chapter) (reqStr : String) :
    Except Unit Chapter :=
  match matchChapterLoop (c :: cs) reqStr with
  | .error e => .error e
  | .ok (some ch) => .ok ch
  | .ok none => .ok c

/-- Modelled from the spec: chapter selection by numeric equality — "the
chapter whose numeric chapter attribute equals the request" — used as the
specification-side reference to compare `findTargetChapter` against. -/
def specSelectChapter (chs : List Chapter) (req : DecVal) : Option Chapter :=
  chs.find? (fun ch =>
    match ch.attr with
    | none => false
    | some s =>
      match decimalVal? s with
      | none => false
      | some v => v.numEq req)

/-! ### Progress store (main.py lines 273-286) -/

/-- A tracked-manga record (main.py line 275). Chapter identifiers are
modelled as strings; `last_read` holds the timestamp of the latest
`mark_chapter_read`. -/
structure MangaRec where
  title : String
  read_chapters : List String
  last_read : Option String
  total_chapters : Nat
deriving DecidableEq, Repr

/-- The persisted store `self.data["tracked_manga"]`, an insertion-ordered
map from manga id to record. -/
structure TrackerData where
  tracked : List (String × MangaRec)
deriving DecidableEq, Repr

/-- Embedding of `mark_chapter_read` (main.py lines 281-286).  The
returned boolean records whether `save_data` was called (i.e. whether the
JSON file was rewritten); `now` stands for `datetime.now().isoformat()`.
An id that is not tracked, or a chapter already recorded, leaves the
store untouched and does not save. -/
def mark_chapter_read (d : TrackerData) (mangaId chNum now : String) :
    TrackerData × Bool :=
  match d.tracked.lookup mangaId with
  | none => (d, false)
  | some r =>
    if chNum ∈ r.read_chapters then (d, false)
    else
      (⟨d.tracked.map (fun kv =>
          if kv.1 = mangaId then
            (kv.1, { r with
                      read_chapters := r.read_chapters ++ [chNum],
                      last_read := some now })
          else kv)⟩, true)

/-! ### Reading session (main.py lines 178-271)

The session is a fuelled state machine over an oracle environment: the
environment decides, for each loop iteration (counted by a visit index
`k`), whether the page fetch and decode succeed, whether each display
mechanism succeeds, and what line the user types.  The observable
behaviour is a trace of page-level events. -/

/-- Page-level events of one reading session.  Indices are the Python
loop variable `i` (an `Int`, so that "never goes negative" is a real
statement); `mkTemp n` records creation of `temp_page_n.png`. -/
inductive Ev
  | fetch (i : Int)
  | tryNative (i : Int)
  | tryViewer (i : Int)
  | tryBrowser (i : Int)
  | mkTemp (n : Int)
  | showAscii (i : Int)
  | disp (i : Int)
  | await (i : Int)
deriving DecidableEq, Repr

/-- Oracle environment of one run of `read_chapter_enhanced`: results of
the two catalog calls, the display-method prompt (`none` models
`EOFError`/`KeyboardInterrupt` at line 206-208), and per-iteration
oracles for fetch success, display-mechanism success, and the stripped,
lowercased user input of line 252. -/
structure Env where
  chaptersData : Option (List Chapter)
  pages : String → Option (List String)
  promptChoice : Option String
  fetchOk : Nat → Bool
  nativeOk : Nat → Bool
  viewerOk : Nat → Bool
  browserOk : Nat → Bool
  userInput : Nat → String

/-- Mutable state of the reading loop: the page index `i`, the current
`display_choice` (a session-scoped variable, mutated in place by the
fallback branches), and the visit counter `k` indexing the oracles. -/
structure St where
  i : Int
  choice : String
  k : Nat
deriving DecidableEq, Repr

/-- Display block for `display_choice == "1"` (main.py lines 222-226):
attempt the native display; on failure the session's choice becomes
"4". -/
def blockNative (ok : Bool) (i : Int) :
    Bool × String × List Ev → Bool × String × List Ev
  | (ds, c, evs) =>
    if c = "1" then (ok, if ok then c else "4", evs ++ [Ev.tryNative i])
    else (ds, c, evs)

/-- Display block for `display_choice == "2"` (main.py lines 228-236):
save the image to `temp_page_{i+1}.png`, attempt the system viewer; on
failure the session's choice becomes "4". -/
def blockViewer (ok : Bool) (i : Int) :
    Bool × String × List Ev → Bool × String × List Ev
  | (ds, c, evs) =>
    if c = "2" then
      (ok, if ok then c else "4", evs ++ [Ev.mkTemp (i + 1), Ev.tryViewer i])
    else (ds, c, evs)

/-- Display block for `display_choice == "3"` (main.py lines 238-244):
attempt the browser; on failure the session's choice becomes "4". -/
def blockBrowser (ok : Bool) (i : Int) :
    Bool × String × List Ev → Bool × String × List Ev
  | (ds, c, evs) =>
    if c = "3" then (ok, if ok then c else "4", evs ++ [Ev.tryBrowser i])
    else (ds, c, evs)

/-- The whole display phase of one iteration (main.py lines 220-249): the
three strategy blocks in sequence on `display_success = False`, then the
ASCII fallback when `display_choice == "4" or not display_success`.
Every path through the phase displays the page one way or another, which
the trailing `disp` event records.  Returns the (possibly downgraded)
`display_choice` and the emitted events. -/
def displayPhase (env : Env) (k : Nat) (i : Int) (choice : String) :
    String × List Ev :=
  let r1 := blockNative (env.nativeOk k) i (false, choice, [])
  let r2 := blockViewer (env.viewerOk k) i r1
  let r3 := blockBrowser (env.browserOk k) i r2
  let asciiEvs := if r3.2.1 = "4" ∨ r3.1 = false then [Ev.showAscii i] else []
  (r3.2.1, r3.2.2 ++ asciiEvs ++ [Ev.disp i])

/-- Result of one loop iteration: `brk` when the `while` body ends in
`break` (fetch/decode failure caught at line 261-263, or input `q`),
`cont` with the successor state otherwise. -/
inductive IterOut
  | brk (evs : List Ev)
  | cont (s : St) (evs : List Ev)
deriving DecidableEq, Repr

/-- One iteration of the reading loop body (main.py lines 212-263),
assuming the `while` guard already held: fetch the page (failure breaks
out of the loop), run the display phase, then dispatch on the user's
input — `q` breaks, `b` with `i > 0` steps back, anything else
advances. -/
def iter (env : Env) (s : St) : IterOut :=
  if env.fetchOk s.k = false then .brk [Ev.fetch s.i]
  else
    let d := displayPhase env s.k s.i s.choice
    let evs := Ev.fetch s.i :: d.2 ++ [Ev.await s.i]
    let inp := env.userInput s.k
    if inp = "q" then .brk evs
    else if inp = "b" ∧ s.i > 0 then .cont ⟨s.i - 1, d.1, s.k + 1⟩ evs
    else .cont ⟨s.i + 1, d.1, s.k + 1⟩ evs

/-- The reading loop `while i < min(max_pages, len(pages))` (main.py
lines 211-263), run with fuel; `none` means the fuel ran out (the Python
loop need not terminate: backward navigation can revisit pages forever).
`bound` is `min(max_pages, len(pages))`. -/
def runLoop (env : Env) (bound : Nat) : Nat → St → Option (List Ev)
  | 0, _ => none
  | fuel + 1, s =>
    if s.i < (bound : Int) then
      match iter env s with
      | .brk evs => some evs
      | .cont s' evs => (runLoop env bound fuel s').map (fun tl => evs ++ tl)
    else some []

/-- Result of a whole call to `read_chapter_enhanced`: a normal return
with the returned boolean and the session's event trace, an uncaught
exception (`float()` raising on a malformed chapter attribute at line
187), or fuel exhaustion of the model. -/
inductive Res
  | ret (b : Bool) (evs : List Ev)
  | raised
  | fuelOut
deriving DecidableEq, Repr

/-- Embedding of `read_chapter_enhanced` (main.py lines 178-271).
Mirrors the source's control flow: missing/empty chapter list returns
`False`; chapter matching; missing/empty page list returns `False`; the
display-method prompt, whose interruption returns `False` (lines
205-208); then the reading loop; the final `return True` is reached
whenever the loop exits, however it exits.  The cleanup loop (lines
266-269) only deletes files and is not part of the event trace. -/
def read_chapter_enhanced (env : Env) (reqStr : String) (maxPages fuel : Nat) :
    Res :=
  match env.chaptersData with
  | none => .ret false []
  | some [] => .ret false []
  | some (c :: cs) =>
    match findTargetChapter c cs reqStr with
    | .error _ => .raised
    | .ok target =>
      match env.pages target.id with
      | none => .ret false []
      | some [] => .ret false []
      | some (p :: ps) =>
        match env.promptChoice with
        | none => .ret false []
        | some raw =>
          let choice := if raw = "" then "1" else raw
          match runLoop env (min maxPages (p :: ps).length) fuel ⟨0, choice, 0⟩ with
          | none => .fuelOut
          | some evs => .ret true evs

/-- String form of `chapters_data['data'][0]['attributes']['chapter'] or
1` (main.py line 321): the first chapter's attribute, with falsy values
replaced by `1`. -/
def firstChapterStr (c : Chapter) : String :=
  match c.attr with
  | some s => if s = "" then "1" else s
  | none => "1"

/-- Embedding of the tail of the `search` command (main.py lines
319-323): after the user opts to read, the chapter feed is fetched again;
on a missing/empty feed the command returns without reading; otherwise
`read_chapter_enhanced` runs and `mark_chapter_read` is then called —
unconditionally, with no look at the session's return value.  Returns the
resulting store and the session result (`none` when no session ran). -/
def search_read_tail (env : Env) (d : TrackerData) (mangaId now : String)
    (maxPages fuel : Nat) : TrackerData × Option Res :=
  match env.chaptersData with
  | none => (d, none)
  | some [] => (d, none)
  | some (c :: _) =>
    let req := firstChapterStr c
    match read_chapter_enhanced env req maxPages fuel with
    | .ret b evs => ((mark_chapter_read d mangaId req now).1, some (.ret b evs))
    | .raised => (d, some .raised)
    | .fuelOut => (d, some .fuelOut)

/-! ### Session trace helpers -/

/-- The page index carried by a fetch or input-await event, `none` for
all other events. -/
def evIdx? : Ev → Option Int
  | Ev.fetch i => some i
  | Ev.await i => some i
  | _ => none

/-- The events of an iteration outcome. -/
def evsOfIter : IterOut → List Ev
  | .brk evs => evs
  | .cont _ evs => evs

/-- Whether an event records a page actually being shown to the user
(the end of a display phase). -/
def isDisp : Ev → Bool
  | .disp _ => true
  | _ => false

/-- The page indices at which the system viewer was attempted. -/
def viewerAttempts (evs : List Ev) : List Int :=
  evs.filterMap (fun e => match e with
    | Ev.tryViewer i => some i
    | _ => none)

/-- The non-Ascii display strategy attempts in a trace. -/
def stratAttempts (evs : List Ev) : List Ev :=
  evs.filter (fun e => match e with
    | Ev.tryNative _ => true
    | Ev.tryViewer _ => true
    | Ev.tryBrowser _ => true
    | _ => false)

/-! ### Display phase and iteration lemmas -/

theorem blockNative_events (ok : Bool) (i : Int) (t : Bool × String × List Ev) :
    ∀ e ∈ (blockNative ok i t).2.2, e ∈ t.2.2 ∨ e = Ev.tryNative i := by
  obtain ⟨ds, c, evs⟩ := t
  intro e he
  by_cases h : c = "1" <;> simp [blockNative, h] at he <;> tauto

theorem blockViewer_events (ok : Bool) (i : Int) (t : Bool × String × List Ev) :
    ∀ e ∈ (blockViewer ok i t).2.2,
      e ∈ t.2.2 ∨ e = Ev.mkTemp (i + 1) ∨ e = Ev.tryViewer i := by
  obtain ⟨ds, c, evs⟩ := t
  intro e he
  by_cases h : c = "2" <;> simp [blockViewer, h] at he <;> tauto

theorem blockBrowser_events (ok : Bool) (i : Int) (t : Bool × String × List Ev) :
    ∀ e ∈ (blockBrowser ok i t).2.2, e ∈ t.2.2 ∨ e = Ev.tryBrowser i := by
  obtain ⟨ds, c, evs⟩ := t
  intro e he
  by_cases h : c = "3" <;> simp [blockBrowser, h] at he <;> tauto

theorem mem_displayPhase_events (env : Env) (k : Nat) (i : Int) (c : String)
    (e : Ev) (he : e ∈ (displayPhase env k i c).2) :
    e = Ev.tryNative i ∨ e = Ev.mkTemp (i + 1) ∨ e = Ev.tryViewer i ∨
    e = Ev.tryBrowser i ∨ e = Ev.showAscii i ∨ e = Ev.disp i := by
  simp only [displayPhase, List.mem_append, List.mem_singleton] at he
  rcases he with (h3 | hA) | hD
  · rcases blockBrowser_events _ _ _ _ h3 with h2 | h2
    · rcases blockViewer_events _ _ _ _ h2 with h1 | h1
      · rcases blockNative_events _ _ _ _ h1 with h0 | h0
        · simp at h0
        · tauto
      · tauto
    · tauto
  · by_cases hc : (blockBrowser (env.browserOk k) i
        (blockViewer (env.viewerOk k) i
          (blockNative (env.nativeOk k) i (false, c, [])))).2.1 = "4" ∨
        (blockBrowser (env.browserOk k) i
          (blockViewer (env.viewerOk k) i
            (blockNative (env.nativeOk k) i (false, c, [])))).1 = false
    · simp [hc] at hA
      tauto
    · simp [hc] at hA
  · tauto

theorem displayPhase_four (env : Env) (k : Nat) (i : Int) :
    displayPhase env k i "4" = ("4", [Ev.showAscii i, Ev.disp i]) := by
  simp [displayPhase, blockNative, blockViewer, blockBrowser]

theorem displayPhase_viewer_fail (env : Env) (k : Nat) (i : Int)
    (hv : env.viewerOk k = false) :
    displayPhase env k i "2"
      = ("4", [Ev.mkTemp (i + 1), Ev.tryViewer i, Ev.showAscii i, Ev.disp i]) := by
  simp [displayPhase, blockNative, blockViewer, blockBrowser, hv]

theorem displayPhase_native_fail (env : Env) (k : Nat) (i : Int)
    (hn : env.nativeOk k = false) :
    displayPhase env k i "1"
      = ("4", [Ev.tryNative i, Ev.showAscii i, Ev.disp i]) := by
  simp [displayPhase, blockNative, blockViewer, blockBrowser, hn]

theorem displayPhase_browser_fail (env : Env) (k : Nat) (i : Int)
    (hb : env.browserOk k = false) :
    displayPhase env k i "3"
      = ("4", [Ev.tryBrowser i, Ev.showAscii i, Ev.disp i]) := by
  simp [displayPhase, blockNative, blockViewer, blockBrowser, hb]

theorem iter_cont_next (env : Env) (s s' : St) (evs : List Ev)
    (h : iter env s = .cont s' evs) :
    s'.i = s.i + 1 ∨ (s'.i = s.i - 1 ∧ 0 < s.i) := by
  unfold iter at h
  by_cases hf : env.fetchOk s.k = false
  · rw [if_pos hf] at h
    simp at h
  · rw [if_neg hf] at h
    by_cases hq : env.userInput s.k = "q"
    · rw [if_pos hq] at h
      simp at h
    · rw [if_neg hq] at h
      by_cases hb : env.userInput s.k = "b" ∧ s.i > 0
      · rw [if_pos hb] at h
        injection h with h1 _
        right
        rw [← h1]
        exact ⟨rfl, hb.2⟩
      · rw [if_neg hb] at h
        injection h with h1 _
        left
        rw [← h1]

theorem iter_cont_choice (env : Env) (s s' : St) (evs : List Ev)
    (h : iter env s = .cont s' evs) :
    s'.choice = (displayPhase env s.k s.i s.choice).1 ∧ s'.k = s.k + 1 := by
  unfold iter at h
  by_cases hf : env.fetchOk s.k = false
  · rw [if_pos hf] at h
    simp at h
  · rw [if_neg hf] at h
    by_cases hq : env.userInput s.k = "q"
    · rw [if_pos hq] at h
      simp at h
    · rw [if_neg hq] at h
      by_cases hb : env.userInput s.k = "b" ∧ s.i > 0
      · rw [if_pos hb] at h
        injection h with h1 _
        rw [← h1]
        exact ⟨rfl, rfl⟩
      · rw [if_neg hb] at h
        injection h with h1 _
        rw [← h1]
        exact ⟨rfl, rfl⟩

theorem iter_events_idx (env : Env) (s : St) (e : Ev)
    (he : e ∈ evsOfIter (iter env s)) (j : Int) (hj : evIdx? e = some j) :
    j = s.i := by
  have main : e ∈ Ev.fetch s.i :: (displayPhase env s.k s.i s.choice).2
      ++ [Ev.await s.i] → j = s.i := by
    intro hm
    rcases List.mem_cons.mp hm with hm | hm
    · subst hm
      simp [evIdx?] at hj
      omega
    · rcases List.mem_append.mp hm with hm | hm
      · rcases mem_displayPhase_events env s.k s.i s.choice e hm with
          h | h | h | h | h | h <;> subst h <;> simp [evIdx?] at hj
      · rcases List.mem_singleton.mp hm with rfl
        simp [evIdx?] at hj
        omega
  unfold iter at he
  by_cases hf : env.fetchOk s.k = false
  · rw [if_pos hf] at he
    simp [evsOfIter] at he
    subst he
    simp [evIdx?] at hj
    omega
  · rw [if_neg hf] at he
    by_cases hq : env.userInput s.k = "q"
    · rw [if_pos hq] at he
      exact main (by simpa [evsOfIter] using he)
    · rw [if_neg hq] at he
      by_cases hb : env.userInput s.k = "b" ∧ s.i > 0
      · rw [if_pos hb] at he
        exact main (by simpa [evsOfIter] using he)
      · rw [if_neg hb] at he
        exact main (by simpa [evsOfIter] using he)

theorem runLoop_fetch_await_bound (env : Env) (bound : Nat) :
    ∀ (fuel : Nat) (s : St) (evs : List Ev), runLoop env bound fuel s = some evs →
      0 ≤ s.i → ∀ e ∈ evs, ∀ j : Int, evIdx? e = some j →
        0 ≤ j ∧ j < (bound : Int) := by
  intro fuel
  induction fuel with
  | zero =>
    intro s evs h
    simp [runLoop] at h
  | succ fuel ih =>
    intro s evs h h0 e he j hj
    rw [runLoop] at h
    by_cases hg : s.i < (bound : Int)
    · rw [if_pos hg] at h
      cases hit : iter env s with
      | brk evs' =>
        rw [hit] at h
        injection h with h'
        subst h'
        have := iter_events_idx env s e (by simp [evsOfIter, hit, he]) j hj
        omega
      | cont s' evs' =>
        rw [hit] at h
        cases hrl : runLoop env bound fuel s' with
        | none =>
          simp [hrl] at h
        | some tl =>
          simp [hrl] at h
          subst h
          rcases List.mem_append.mp he with he' | he'
          · have := iter_events_idx env s e (by simp [evsOfIter, hit, he']) j hj
            omega
          · have h0' : 0 ≤ s'.i := by
              rcases iter_cont_next env s s' evs' hit with h1 | ⟨h1, h2⟩ <;> omega
            exact ih s' tl hrl h0' e he' j hj
    · rw [if_neg hg] at h
      injection h with h'
      subst h'
      simp at he

theorem iter_choice_four_shape (env : Env) (s : St) (h4 : s.choice = "4") :
    iter env s = .brk [Ev.fetch s.i] ∨
    iter env s
      = .brk [Ev.fetch s.i, Ev.showAscii s.i, Ev.disp s.i, Ev.await s.i] ∨
    (∃ i' : Int,
      iter env s
        = .cont ⟨i', "4", s.k + 1⟩
            [Ev.fetch s.i, Ev.showAscii s.i, Ev.disp s.i, Ev.await s.i]) := by
  unfold iter
  rw [h4, displayPhase_four env s.k s.i]
  by_cases hf : env.fetchOk s.k = false
  · rw [if_pos hf]
    tauto
  · rw [if_neg hf]
    by_cases hq : env.userInput s.k = "q"
    · rw [if_pos hq]
      right; left
      rfl
    · rw [if_neg hq]
      by_cases hb : env.userInput s.k = "b" ∧ s.i > 0
      · rw [if_pos hb]
        right; right
        exact ⟨s.i - 1, rfl⟩
      · rw [if_neg hb]
        right; right
        exact ⟨s.i + 1, rfl⟩

theorem runLoop_choice_four (env : Env) (bound : Nat) :
    ∀ (fuel : Nat) (s : St) (evs : List Ev), s.choice = "4" →
      runLoop env bound fuel s = some evs → stratAttempts evs = [] := by
  intro fuel
  induction fuel with
  | zero =>
    intro s evs _ h
    simp [runLoop] at h
  | succ fuel ih =>
    intro s evs h4 h
    rw [runLoop] at h
    by_cases hg : s.i < (bound : Int)
    · rw [if_pos hg] at h
      rcases iter_choice_four_shape env s h4 with hit | hit | ⟨i', hit⟩ <;>
        rw [hit] at h
      · injection h with h'
        subst h'
        rfl
      · injection h with h'
        subst h'
        rfl
      · cases hrl : runLoop env bound fuel ⟨i', "4", s.k + 1⟩ with
        | none =>
          simp [hrl] at h
        | some tl =>
          simp [hrl] at h
          subst h
          have htl := ih ⟨i', "4", s.k + 1⟩ tl rfl hrl
          simp [stratAttempts, List.filter_append] at *
          exact htl
    · rw [if_neg hg] at h
      injection h with h'
      subst h'
      rfl

/-! ### Concrete scenarios used by the claim theorems -/

/-- Session in which the user picks the system viewer ("2"), every fetch
succeeds, the viewer fails, and the user pages forward once then
quits. -/
def envC1 : Env :=
  { chaptersData := some [⟨"c1", some "1"⟩]
    pages := fun cid => if cid = "c1" then some ["u1", "u2"] else none
    promptChoice := some "2"
    fetchOk := fun _ => true
    nativeOk := fun _ => false
    viewerOk := fun _ => false
    browserOk := fun _ => false
    userInput := fun k => if k = 0 then "" else "q" }

/-- The trace of `envC1`: the viewer is attempted on page index 0 only;
page index 1 is rendered as ASCII without a viewer attempt. -/
def traceC1 : List Ev :=
  [Ev.fetch 0, Ev.mkTemp 1, Ev.tryViewer 0, Ev.showAscii 0, Ev.disp 0,
   Ev.await 0, Ev.fetch 1, Ev.showAscii 1, Ev.disp 1, Ev.await 1]

/-- Session in which the very first page fetch fails. -/
def envC2 : Env :=
  { chaptersData := some [⟨"c1", some "1"⟩]
    pages := fun cid => if cid = "c1" then some ["u1", "u2"] else none
    promptChoice := some "2"
    fetchOk := fun _ => false
    nativeOk := fun _ => false
    viewerOk := fun _ => false
    browserOk := fun _ => false
    userInput := fun _ => "" }

/-- Session whose display-method prompt is interrupted. -/
def envC3 : Env :=
  { chaptersData := some [⟨"c1", some "1"⟩]
    pages := fun cid => if cid = "c1" then some ["u1"] else none
    promptChoice := none
    fetchOk := fun _ => true
    nativeOk := fun _ => false
    viewerOk := fun _ => false
    browserOk := fun _ => false
    userInput := fun _ => "" }

/-- A store tracking manga `m1` with no chapters read. -/
def dC3 : TrackerData := ⟨[("m1", ⟨"T", [], none, 0⟩)]⟩

/-- Session whose user types `b` on every page. -/
def envC4 : Env :=
  { chaptersData := none
    pages := fun _ => none
    promptChoice := none
    fetchOk := fun _ => true
    nativeOk := fun _ => false
    viewerOk := fun _ => false
    browserOk := fun _ => false
    userInput := fun _ => "b" }

/-- Session over three pages with ASCII display chosen and empty inputs
throughout (the spec's `maxPages=5`, `len(pages)=3` scenario). -/
def envC5 : Env :=
  { chaptersData := some [⟨"c1", some "1"⟩]
    pages := fun cid => if cid = "c1" then some ["u1", "u2", "u3"] else none
    promptChoice := some "4"
    fetchOk := fun _ => true
    nativeOk := fun _ => false
    viewerOk := fun _ => false
    browserOk := fun _ => false
    userInput := fun _ => "" }

/-- The trace of `envC5`: pages 0, 1, 2 in order, then the guard stops
the loop. -/
def traceC5 : List Ev :=
  [Ev.fetch 0, Ev.showAscii 0, Ev.disp 0, Ev.await 0,
   Ev.fetch 1, Ev.showAscii 1, Ev.disp 1, Ev.await 1,
   Ev.fetch 2, Ev.showAscii 2, Ev.disp 2, Ev.await 2]

/-- A store tracking only manga `m1`, for the untracked-id claim. -/
def dC9 : TrackerData := ⟨[("m1", ⟨"T", [], none, 0⟩)]⟩

/-- Session whose display-method prompt is interrupted (claim C10). -/
def envC10 : Env :=
  { chaptersData := some [⟨"c7", some "3"⟩]
    pages := fun cid => if cid = "c7" then some ["v1", "v2"] else none
    promptChoice := none
    fetchOk := fun _ => true
    nativeOk := fun _ => true
    viewerOk := fun _ => true
    browserOk := fun _ => true
    userInput := fun _ => "" }

/-! ### Claim C6 — renderer output shape -/

/-- C6 counterexample: for a 1×1 image (post-resize width 1, height 1)
the emission loop produces zero newline characters, not `height = 1` as
the claim states ("the output string contains exactly `height` line
breaks"). -/
theorem C6_counterexample :
    (image_to_ascii_loop 1 0 [0]).count '\n' = 0 ∧
    ¬((image_to_ascii_loop 1 0 [0]).count '\n' = 1) := by
  decide

/-- C6 (amended): for every post-resize width `w > 0`, height `h > 0` and
flattened pixel grid of `w * h` luminances, the emission loop's output
contains exactly `h - 1` line breaks — that is, exactly `h` lines — and
every line has exactly `2 * w` characters (each palette character is
emitted twice horizontally). -/
theorem C6_theorem (w h : Nat) (px : List Nat) (hw : 0 < w) (hh : 0 < h)
    (hlen : px.length = w * h) :
    (image_to_ascii_loop w 0 px).count '\n' = h - 1 ∧
    (splitLines (image_to_ascii_loop w 0 px)).length = h ∧
    ∀ l ∈ splitLines (image_to_ascii_loop w 0 px), l.length = 2 * w := by
  have hc := count_newline_image_to_ascii_loop w hw h 0 px hlen
  rw [Nat.mul_zero] at hc
  refine ⟨by simpa using hc, ?_, ?_⟩
  · rw [splitLines_image_to_ascii_loop w h hw hh px hlen]
    rw [List.length_map, length_chunkRows]
  · intro l hl
    rw [splitLines_image_to_ascii_loop w h hw hh px hlen] at hl
    obtain ⟨r, hr, rfl⟩ := List.mem_map.mp hl
    rw [length_dblRow, mem_chunkRows_length w hw h px hlen r hr]

/-- C6 witness: the amended claim at the concrete 2×2 grid
`[0, 255, 10, 20]`: one line break, two lines, each of four
characters. -/
theorem C6_witness :
    (image_to_ascii_loop 2 0 [0, 255, 10, 20]).count '\n' = 2 - 1 ∧
    (splitLines (image_to_ascii_loop 2 0 [0, 255, 10, 20])).length = 2 ∧
    ∀ l ∈ splitLines (image_to_ascii_loop 2 0 [0, 255, 10, 20]),
      l.length = 2 * 2 :=
  C6_theorem 2 2 [0, 255, 10, 20] (by decide) (by decide) (by decide)

/-! ### Claim C7 — palette and luminance mapping -/

/-- C7 counterexample: the palette `ascii_chars` of main.py line 165 has
67 characters, not the 69 the claim states. -/
theorem C7_counterexample :
    ascii_chars.length = 67 ∧ ¬(ascii_chars.length = 69) := by
  decide

/-- C7 (amended): the palette is an ordered list of 67 characters; with
`index = floor(luminance / 255 * (paletteSize - 1))`, luminance 0 maps to
index 0, luminance 255 maps to index `paletteSize - 1 = 66`, and the
mapping is monotonic non-decreasing in luminance. -/
theorem C7_theorem :
    ascii_chars.length = 67 ∧
    char_index 0 = 0 ∧
    char_index 255 = ascii_chars.length - 1 ∧
    ∀ p q : Nat, p ≤ q → char_index p ≤ char_index q := by
  refine ⟨by decide, by decide, by decide, ?_⟩
  intro p q h
  exact Nat.div_le_div_right (Nat.mul_le_mul_right _ h)

/-- C7 witness: monotonicity of the amended claim at luminances 100 and
200. -/
theorem C7_witness : char_index 100 ≤ char_index 200 :=
  C7_theorem.2.2.2 100 200 (by decide)

/-! ### Claim C8 — chapter matching -/

/-- C8 counterexample: with the fetched list `[⟨c2, "2"⟩, ⟨c1, "1"⟩]` and
requested chapter number `1` (string form "1"), chapter `c1`'s numeric
attribute equals the request, yet the code selects `c2`: the comparison
`str(float(attr)) == str(chapter_number)` renders `"1"` as `"1.0"`, which
differs from `"1"`, so no chapter matches and the first chapter is
selected. -/
theorem C8_counterexample :
    findTargetChapter ⟨"c2", some "2"⟩ [⟨"c1", some "1"⟩] "1"
      = .ok ⟨"c2", some "2"⟩ ∧
    specSelectChapter [⟨"c2", some "2"⟩, ⟨"c1", some "1"⟩] ⟨1, 0⟩
      = some ⟨"c1", some "1"⟩ ∧
    decimalVal? "1" = some ⟨1, 0⟩ := by
  refine ⟨by rfl, by decide, by decide⟩

theorem matchChapterLoop_no_match (reqStr : String) :
    ∀ chs : List Chapter,
      (∀ ch ∈ chs, pyTruthy ch.attr = true →
        ∃ s, pyFloatStr (ch.attr.getD "") = some s ∧ s ≠ reqStr) →
      matchChapterLoop chs reqStr = .ok none := by
  intro chs
  induction chs with
  | nil => intro _; rfl
  | cons ch rest ih =>
    intro hall
    by_cases ht : pyTruthy ch.attr = true
    · obtain ⟨s, hs, hne⟩ := hall ch (List.mem_cons_self ch rest) ht
      simp only [matchChapterLoop, ht, if_true, hs]
      rw [if_neg hne]
      exact ih (fun x hx => hall x (List.mem_cons_of_mem ch hx))
    · simp only [matchChapterLoop, ht, if_false]
      exact ih (fun x hx => hall x (List.mem_cons_of_mem ch hx))

/-- C8 (amended): the matching step compares `str(float(attr))` with
`str(chapter_number)` as strings; when no chapter's canonical float
rendering equals the request's string form — including when the request
is numerically equal but formatted differently, or malformed — the first
chapter of the fetched list is selected.  (A truthy attribute on which
`float()` raises instead aborts with the exception, which the hypothesis
excludes.) -/
theorem C8_theorem (c : Chapter) (cs : List Chapter) (reqStr : String)
    (hall : ∀ ch ∈ c :: cs, pyTruthy ch.attr = true →
      ∃ s, pyFloatStr (ch.attr.getD "") = some s ∧ s ≠ reqStr) :
    findTargetChapter c cs reqStr = .ok c := by
  unfold findTargetChapter
  rw [matchChapterLoop_no_match reqStr (c :: cs) hall]

/-- C8 witness: the amended claim at the concrete list `[⟨c9, "3"⟩]` and
request "7": no match, so the first chapter is selected. -/
theorem C8_witness :
    findTargetChapter ⟨"c9", some "3"⟩ [] "7" = .ok ⟨"c9", some "3"⟩ :=
  C8_theorem ⟨"c9", some "3"⟩ [] "7" (by
    intro ch hch ht
    simp at hch
    subst hch
    exact ⟨"3.0", rfl, by decide⟩)

/-! ### Claim C9 — untracked manga id -/

/-- C9: calling `mark_chapter_read` with a manga id that is not in the
tracked-manga store leaves the store unchanged and does not call
`save_data` (the persisted file is not rewritten); no error is raised. -/
theorem C9_theorem (d : TrackerData) (mangaId chNum now : String)
    (h : d.tracked.lookup mangaId = none) :
    mark_chapter_read d mangaId chNum now = (d, false) := by
  unfold mark_chapter_read
  rw [h]

/-- C9 witness: marking a chapter of untracked id `m2` in a store that
tracks only `m1` returns the store unchanged with no save. -/
theorem C9_witness : mark_chapter_read dC9 "m2" "5" "t1" = (dC9, false) :=
  C9_theorem dC9 "m2" "5" "t1" (by decide)

/-! ### Claim C1 — fallback scope -/

/-- C1 counterexample: in `envC1` the chosen strategy is the system
viewer ("2"); it fails on page index 0, the page falls back to ASCII, and
page index 1 — though displayed — never attempts the viewer again
(`viewerAttempts traceC1 = [0]`): `display_choice` is a session variable
permanently set to "4" by the fallback, refuting "the downgrade applies
to the current page only". -/
theorem C1_counterexample :
    read_chapter_enhanced envC1 "1.0" 5 5 = .ret true traceC1 ∧
    viewerAttempts traceC1 = [0] ∧
    Ev.disp 1 ∈ traceC1 := by
  refine ⟨by rfl, by rfl, by decide⟩

/-- C1 (amended): when the selected strategy (Native "1", SystemViewer
"2", or Browser "3") fails on a page and the loop continues, the
session's choice becomes "4" and stays there: no later page of the
session attempts any non-ASCII strategy — the downgrade persists for the
remainder of the session, it is not restored on the next page. -/
theorem C1_theorem (env : Env) (bound fuel : Nat) (s s' : St)
    (evs0 evs : List Ev)
    (hfail : (s.choice = "1" ∧ env.nativeOk s.k = false) ∨
             (s.choice = "2" ∧ env.viewerOk s.k = false) ∨
             (s.choice = "3" ∧ env.browserOk s.k = false))
    (hit : iter env s = .cont s' evs0)
    (hrl : runLoop env bound fuel s' = some evs) :
    s'.choice = "4" ∧ stratAttempts evs = [] := by
  have hch : s'.choice = "4" := by
    have hcc := iter_cont_choice env s s' evs0 hit
    rcases hfail with ⟨hc, hv⟩ | ⟨hc, hv⟩ | ⟨hc, hv⟩
    · rw [hcc.1, hc, displayPhase_native_fail env s.k s.i hv]
    · rw [hcc.1, hc, displayPhase_viewer_fail env s.k s.i hv]
    · rw [hcc.1, hc, displayPhase_browser_fail env s.k s.i hv]
  exact ⟨hch, runLoop_choice_four env bound fuel s' evs hch hrl⟩

/-- C1 witness: the amended claim instantiated on `envC1` after the
viewer failed on page 0 — the continuation state carries choice "4" and
the rest of the session makes no strategy attempt. -/
theorem C1_witness :
    (St.mk 1 "4" 1).choice = "4" ∧
    stratAttempts [Ev.fetch 1, Ev.showAscii 1, Ev.disp 1, Ev.await 1] = [] :=
  C1_theorem envC1 2 4 ⟨0, "2", 0⟩ ⟨1, "4", 1⟩
    [Ev.fetch 0, Ev.mkTemp 1, Ev.tryViewer 0, Ev.showAscii 0, Ev.disp 0,
     Ev.await 0]
    [Ev.fetch 1, Ev.showAscii 1, Ev.disp 1, Ev.await 1]
    (Or.inr (Or.inl ⟨rfl, rfl⟩)) rfl rfl

/-! ### Claim C2 — return value of the reading session -/

/-- C2 counterexample: in `envC2` the very first page fetch fails, the
loop breaks, and `read_chapter_enhanced` still returns `True` with a
trace containing no display event — refuting "returns a boolean that is
true if and only if at least one page was successfully displayed". -/
theorem C2_counterexample :
    read_chapter_enhanced envC2 "1.0" 5 5 = .ret true [Ev.fetch 0] ∧
    [Ev.fetch 0].any isDisp = false := by
  refine ⟨by rfl, by rfl⟩

/-- C2 (amended): `read_chapter_enhanced` returns `True` whenever the
chapter list and page list are non-empty and the display-method prompt is
answered, regardless of whether any page was displayed: every modelled
fetch or display failure inside the loop is caught and merely ends the
loop early, and the function then still returns `True`. -/
theorem C2_theorem (env : Env) (reqStr : String) (maxPages fuel : Nat)
    (c : Chapter) (cs : List Chapter) (t : Chapter) (p : String)
    (ps : List String) (raw : String) (evs : List Ev)
    (h1 : env.chaptersData = some (c :: cs))
    (h2 : findTargetChapter c cs reqStr = .ok t)
    (h3 : env.pages t.id = some (p :: ps))
    (h4 : env.promptChoice = some raw)
    (h5 : runLoop env (min maxPages (p :: ps).length) fuel
        ⟨0, if raw = "" then "1" else raw, 0⟩ = some evs) :
    read_chapter_enhanced env reqStr maxPages fuel = .ret true evs := by
  simp only [read_chapter_enhanced, h1, h2, h3, h4, h5]

/-- C2 witness: the amended claim instantiated on `envC2`, whose first
fetch fails: the session still returns `True`. -/
theorem C2_witness :
    read_chapter_enhanced envC2 "1.0" 5 5 = Res.ret true [Ev.fetch 0] :=
  C2_theorem envC2 "1.0" 5 5 ⟨"c1", some "1"⟩ [] ⟨"c1", some "1"⟩ "u1" ["u2"]
    "2" [Ev.fetch 0] rfl rfl rfl rfl rfl

/-! ### Claim C3 — progress recording after the session -/

/-- C3 counterexample: in `envC3` the session aborts at the prompt and
returns `False`, yet the `search` flow still marks chapter "1" of `m1` as
read: the store changes from no chapters read to `["1"]` — refuting "a
session that aborts never results in the chapter being marked as
read". -/
theorem C3_counterexample :
    search_read_tail envC3 dC3 "m1" "t0" 5 5
      = (⟨[("m1", ⟨"T", ["1"], some "t0", 0⟩)]⟩, some (Res.ret false [])) ∧
    (⟨[("m1", ⟨"T", ["1"], some "t0", 0⟩)]⟩ : TrackerData) ≠ dC3 := by
  refine ⟨by rfl, by decide⟩

/-- C3 (amended): in the `search` flow, once a chapter feed is available
and the reading step is reached, `mark_chapter_read` is called after
`read_chapter_enhanced` regardless of the session's boolean result: an
aborted session that returns normally (with `False`) still marks the
chapter read. -/
theorem C3_theorem (env : Env) (d : TrackerData) (mangaId now : String)
    (maxPages fuel : Nat) (c : Chapter) (cs : List Chapter) (b : Bool)
    (evs : List Ev)
    (h1 : env.chaptersData = some (c :: cs))
    (h2 : read_chapter_enhanced env (firstChapterStr c) maxPages fuel
        = .ret b evs) :
    search_read_tail env d mangaId now maxPages fuel
      = ((mark_chapter_read d mangaId (firstChapterStr c) now).1,
         some (.ret b evs)) := by
  simp only [search_read_tail, h1, h2]

/-- C3 witness: the amended claim instantiated on `envC3`, whose session
returns `False`; the store is still updated through
`mark_chapter_read`. -/
theorem C3_witness :
    search_read_tail envC3 dC3 "m1" "t0" 5 5
      = ((mark_chapter_read dC3 "m1" (firstChapterStr ⟨"c1", some "1"⟩)
            "t0").1,
         some (Res.ret false [])) :=
  C3_theorem envC3 dC3 "m1" "t0" 5 5 ⟨"c1", some "1"⟩ [] false [] rfl rfl

/-! ### Claim C4 — input `b` on the first page -/

/-- C4 counterexample: at page index 0 with input `b`, the walker
advances to index 1 — the guard `user_input == 'b' and i > 0` fails at
`i == 0`, so the `else: i += 1` branch runs — refuting "the walker stays
on the first page". -/
theorem C4_counterexample :
    envC4.userInput 0 = "b" ∧
    iter envC4 ⟨0, "4", 0⟩
      = .cont ⟨1, "4", 1⟩ [Ev.fetch 0, Ev.showAscii 0, Ev.disp 0,
          Ev.await 0] := by
  refine ⟨by rfl, by rfl⟩

/-- C4 (amended): at index 0, input `b` is handled by the catch-all
advance branch: the next state's index is 1 (in particular the index
never becomes negative; it does not stay at 0). -/
theorem C4_theorem (env : Env) (s s' : St) (evs : List Ev)
    (h0 : s.i = 0) (hb : env.userInput s.k = "b")
    (hit : iter env s = .cont s' evs) : s'.i = 1 := by
  rcases iter_cont_next env s s' evs hit with h | ⟨h1, h2⟩ <;> omega

/-- C4 witness: the amended claim on `envC4` (input `b` at index 0). -/
theorem C4_witness : (St.mk 1 "4" 1).i = 1 :=
  C4_theorem envC4 ⟨0, "4", 0⟩ ⟨1, "4", 1⟩
    [Ev.fetch 0, Ev.showAscii 0, Ev.disp 0, Ev.await 0] rfl rfl rfl

/-! ### Claim C5 — page index invariant -/

/-- C5: in every reading session over a fetched page list, every page
index at which a page is fetched or input is awaited satisfies
`0 <= i < min(maxPages, len(pages))`: the walker never attempts an index
at or beyond the bound and never goes negative. -/
theorem C5_theorem (env : Env) (reqStr : String) (maxPages fuel : Nat)
    (c : Chapter) (cs : List Chapter) (t : Chapter) (pgs : List String)
    (b : Bool) (evs : List Ev)
    (h1 : env.chaptersData = some (c :: cs))
    (h2 : findTargetChapter c cs reqStr = .ok t)
    (h3 : env.pages t.id = some pgs)
    (hr : read_chapter_enhanced env reqStr maxPages fuel = .ret b evs) :
    ∀ e ∈ evs, ∀ j : Int, evIdx? e = some j →
      0 ≤ j ∧ j < ((min maxPages pgs.length : Nat) : Int) := by
  intro e he j hj
  simp only [read_chapter_enhanced, h1, h2, h3] at hr
  cases pgs with
  | nil =>
    injection hr with _ h'
    subst h'
    simp at he
  | cons p ps =>
    simp only [List.length_cons]
    cases hpc : env.promptChoice with
    | none =>
      rw [hpc] at hr
      injection hr with _ h'
      subst h'
      simp at he
    | some raw =>
      rw [hpc] at hr
      cases hrl : runLoop env (min maxPages (ps.length + 1)) fuel
          ⟨0, if raw = "" then "1" else raw, 0⟩ with
      | none =>
        simp [hrl] at hr
      | some evs' =>
        simp [hrl] at hr
        rcases hr with ⟨hb', hevs⟩
        subst hevs
        exact runLoop_fetch_await_bound env (min maxPages (ps.length + 1))
          fuel ⟨0, if raw = "" then "1" else raw, 0⟩ evs' hrl (by simp)
          e he j hj

/-- C5 witness: the spec's scenario `maxPages = 5`, three pages, empty
inputs (`envC5`): the fetch at index 2 is within bounds. -/
theorem C5_witness : (0 : Int) ≤ 2 ∧ (2 : Int) < ((min 5 3 : Nat) : Int) :=
  C5_theorem envC5 "1.0" 5 9 ⟨"c1", some "1"⟩ [] ⟨"c1", some "1"⟩
    ["u1", "u2", "u3"] true traceC5 rfl rfl rfl rfl
    (Ev.fetch 2) (by decide) 2 rfl

/-! ### Claim C10 — interrupted display prompt -/

/-- C10: when the display-method prompt is interrupted (`EOFError` or
`KeyboardInterrupt`, modelled as `promptChoice = none`),
`read_chapter_enhanced` returns `False` with an empty event trace: no
page is fetched, nothing is displayed, and no temporary file is
created. -/
theorem C10_theorem (env : Env) (reqStr : String) (maxPages fuel : Nat)
    (c : Chapter) (cs : List Chapter) (t : Chapter) (p : String)
    (ps : List String)
    (h1 : env.chaptersData = some (c :: cs))
    (h2 : findTargetChapter c cs reqStr = .ok t)
    (h3 : env.pages t.id = some (p :: ps))
    (h4 : env.promptChoice = none) :
    read_chapter_enhanced env reqStr maxPages fuel = .ret false [] := by
  simp only [read_chapter_enhanced, h1, h2, h3, h4]

/-- C10 witness: the claim instantiated on `envC10`. -/
theorem C10_witness :
    read_chapter_enhanced envC10 "3.0" 5 5 = Res.ret false [] :=
  C10_theorem envC10 "3.0" 5 5 ⟨"c7", some "3"⟩ [] ⟨"c7", some "3"⟩ "v1"
    ["v2"] rfl rfl rfl rfl
